import Mathlib

/-!
Verification development for the clinote note serialization / diff / save
pipeline.  The Go source (package clinote, note.go) is embedded shallowly:

* strings are Lean `String`s; Go's `bufio.Scanner` with `ScanLines`, Go's
  `strings.TrimSpace`, `strings.Trim(s, "\n")`, `strings.Index(l, pre) == 0`
  and byte-slicing `l[len(pre):]` are modeled by executable functions below
  (the sliced prefixes are pure ASCII, so byte indices and character indices
  coincide);
* the MD5 digest used by `Note.Hash` is modeled by its preimage (the
  concatenation that the Go code feeds to the hasher): the code only ever
  compares digests for equality, and the model treats the hash as
  collision-free;
* fallible collaborator calls (note store, local store, editor, cache file)
  are oracles supplied through environment records, and the external
  markdown converter `markdown.ToXML` is an abstract function parameter;
* pointer-typed fields (`*Notebook`) become `Option`; a nil-pointer
  dereference makes the embedded operation return `none`.
-/

namespace Clinote

/-! ## Go string primitives -/

/-- Go `bufio.dropCR`: removes one trailing carriage return from a line. -/
def dropCR (l : List Char) : List Char :=
  if l.getLast? = some '\r' then l.dropLast else l

/-- Accumulating worker for Go `bufio.ScanLines`: splits at each newline,
removing the newline and a trailing carriage return from every token; a
final unterminated token is produced only when non-empty. -/
def scanLinesAux : List Char → List Char → List (List Char)
  | [], acc => if acc.isEmpty then [] else [dropCR acc]
  | c :: rest, acc =>
    if c = '\n' then dropCR acc :: scanLinesAux rest []
    else scanLinesAux rest (acc ++ [c])

/-- The sequence of lines a `bufio.Scanner` with `ScanLines` yields on `s`. -/
def scanLines (s : String) : List String :=
  (scanLinesAux s.data []).map String.mk

/-- Concatenation of a list of strings (`bytes.Buffer` accumulation). -/
def strJoin : List String → String
  | [] => ""
  | s :: rest => s ++ strJoin rest

/-- Go byte-slicing `s[n:]` for an ASCII prefix of length `n`. -/
def strDrop (s : String) (n : Nat) : String := String.mk (s.data.drop n)

/-- Go `unicode.IsSpace` (the exact White_Space code points). -/
def goIsSpace (c : Char) : Bool :=
  c = ' ' || c = '\t' || c = '\n' || c.val = 11 || c.val = 12 || c = '\r' ||
  c.val = 0x85 || c.val = 0xA0 || c.val = 0x1680 ||
  (0x2000 ≤ c.val && c.val ≤ 0x200A) ||
  c.val = 0x2028 || c.val = 0x2029 || c.val = 0x202F || c.val = 0x205F ||
  c.val = 0x3000

/-- Drop characters satisfying `p` from the front of a character list. -/
def trimStartP (p : Char → Bool) (l : List Char) : List Char := l.dropWhile p

/-- Drop characters satisfying `p` from the back of a character list. -/
def trimEndP (p : Char → Bool) (l : List Char) : List Char :=
  (l.reverse.dropWhile p).reverse

/-- Go `strings.TrimSpace`. -/
def goTrimSpace (s : String) : String :=
  String.mk (trimEndP goIsSpace (trimStartP goIsSpace s.data))

/-- Go `strings.Trim(s, "\n")`: strips newline characters from both ends. -/
def trimNL (s : String) : String :=
  String.mk (trimEndP (· = '\n') (trimStartP (· = '\n') s.data))

/-- Digit-string to number. -/
def digitsToNat (l : List Char) : Nat :=
  l.foldl (fun a c => a * 10 + (c.toNat - 48)) 0

/-- Go `strconv.Atoi`: optional sign, then decimal digits only; empty digit
strings and values outside the signed 64-bit range yield an error (`none`). -/
def goAtoi (s : String) : Option Int :=
  let neg := "-".data.isPrefixOf s.data
  let pos := "+".data.isPrefixOf s.data
  let ds := if neg || pos then s.data.drop 1 else s.data
  if ds.isEmpty then none
  else if ds.all (fun c => '0' ≤ c && c ≤ '9') then
    let v : Int := if neg then -(digitsToNat ds : Int) else (digitsToNat ds : Int)
    if v < -9223372036854775808 || 9223372036854775807 < v then none else some v
  else none

/-! ## Data model -/

/-- Modelled from the spec: the Notebook entity is identified by `GUID` and
`Name` (its defining source file is not under src/; field usage follows the
call sites in note.go).  `new(Notebook)` in Go yields both fields empty. -/
structure Notebook where
  name : String
  guid : String
deriving DecidableEq

/-- The `Note` structure of note.go.  The Go field `Notebook *Notebook`
(a nullable pointer) becomes an `Option`. -/
structure Note where
  title : String
  guid : String
  body : String
  md : String
  deleted : Bool
  notebook : Option Notebook
  created : Int
  updated : Int
deriving DecidableEq

/-- The zero value of the Go `Note` struct (a freshly allocated note). -/
def freshNote : Note :=
  { title := "", guid := "", body := "", md := "", deleted := false,
    notebook := none, created := 0, updated := 0 }

/-- The `NoteOption` bitmask (`RawNote`, `UseRecoveryPointNote`,
`StdinNote`), embedded as independent booleans; `opts&Flag != 0` becomes a
field projection. -/
structure NoteOption where
  raw : Bool
  useRecoveryPoint : Bool
  stdin : Bool
deriving DecidableEq

/-- `DefaultNoteOption`: no flag set. -/
def DefaultNoteOption : NoteOption :=
  { raw := false, useRecoveryPoint := false, stdin := false }

/-- `XMLHeader`: the fixed declaration-and-doctype prefix of wire content. -/
def XMLHeader : String :=
  "<?xml version=\"1.0\" encoding=\"UTF-8\"?><!DOCTYPE en-note SYSTEM \"http://xml.evernote.com/pub/enml2.dtd\">"

/-- `headSep`: the header delimiter line. -/
def headSep : String := "---"

/-- `headSpace`. -/
def headSpace : String := " "

/-- `headTitleField`. -/
def headTitleField : String := "title:"

/-- `headNotebookNameField`. -/
def headNotebookNameField : String := "notebook:"

/-- `Note.Hash`: MD5 over `Title` then `Body` (raw) or `MD`.  The digest is
modeled by the exact byte sequence fed to the hasher; the code compares
digests only for equality and the model treats MD5 as collision-free. -/
def Note.Hash (n : Note) (raw : Bool) : String :=
  n.title ++ (if raw then n.body else n.md)

/-! ## HeaderCodec: parseHeader -/

/-- First loop of `parseHeader`: scan forward, discarding lines, until the
first delimiter line; returns the lines remaining after it (all input is
consumed when no delimiter exists). -/
def findHeaderStart : List String → List String
  | [] => []
  | l :: ls => if l = headSep then ls else findHeaderStart ls

/-- Second loop of `parseHeader`: consume header lines until the closing
delimiter (or end of input), assigning `title:` and `notebook:` fields;
the notebook is lazily allocated; unrecognized lines are ignored.  Returns
the mutated note and the lines remaining after the closing delimiter. -/
def parseHeaderLines : List String → Note → Note × List String
  | [], n => (n, [])
  | l :: ls, n =>
    if l = headSep then (n, ls)
    else if headTitleField.data.isPrefixOf l.data then
      parseHeaderLines ls
        { n with title := goTrimSpace (strDrop l headTitleField.length) }
    else if headNotebookNameField.data.isPrefixOf l.data then
      let newName := goTrimSpace (strDrop l headNotebookNameField.length)
      let nb : Notebook :=
        match n.notebook with
        | none => { name := newName, guid := "" }
        | some b => { b with name := newName }
      parseHeaderLines ls { n with notebook := some nb }
    else parseHeaderLines ls n

/-- `parseHeader` over the scanned lines: both loops in sequence. -/
def parseHeader (ls : List String) (n : Note) : Note × List String :=
  parseHeaderLines (findHeaderStart ls) n

/-! ## DocumentCodec: parseContent / parseNote / WriteNote -/

/-- `parseContent`: re-joins every remaining line with a newline, trims
newlines from both ends, and stores the result in `Body` (raw mode) or
`MD`. -/
def parseContent (ls : List String) (n : Note) (opts : NoteOption) : Note :=
  let content := trimNL (strJoin (ls.map (· ++ "\n")))
  if opts.raw then { n with body := content } else { n with md := content }

/-- `parseNote`: header scan followed by content scan over one document
(the scanner state after the header pass is the list of remaining lines). -/
def parseNote (text : String) (n : Note) (opts : NoteOption) : Note :=
  parseContent (parseHeader (scanLines text) n).2 (parseHeader (scanLines text) n).1 opts

/-- The slice of header lines `writeNoteHeader` builds before writing: the
notebook line is appended only for a non-nil notebook with non-empty
name. -/
def writeNoteHeaderLines (n : Note) : List String :=
  [headSep, headTitleField ++ " " ++ n.title] ++
  (match n.notebook with
   | some b => if b.name ≠ "" then [headNotebookNameField ++ headSpace ++ b.name] else []
   | none => []) ++
  [headSep]

/-- `writeNoteHeader`: each header line followed by a newline. -/
def writeNoteHeader (n : Note) : String :=
  strJoin ((writeNoteHeaderLines n).map (· ++ "\n"))

/-- `WriteNote`: header block, then `Body` (raw) or `MD`, then one
unconditionally appended newline. -/
def WriteNote (n : Note) (opts : NoteOption) : String :=
  writeNoteHeader n ++ (if opts.raw then n.body else n.md) ++ "\n"

/-! ## SaveCoordinator: toXML / SaveNewNote -/

/-- `toXML`: wraps the converted markdown in the wire envelope.  The
external converter `markdown.ToXML` is the parameter `conv`. -/
def toXML (conv : String → String) (mdBody : String) : String :=
  XMLHeader ++ "<en-note>" ++ conv mdBody ++ "</en-note>"

/-- `SaveNewNote`: computes the wire body of a brand-new note (markdown
conversion for non-raw non-empty `MD`; literal wrapping in raw mode; the
fixed empty envelope otherwise) and returns the note as handed to
`ns.CreateNote`. -/
def SaveNewNote (conv : String → String) (n : Note) (raw : Bool) : Note :=
  let body :=
    if !raw && n.md ≠ "" then toXML conv n.md
    else if raw then XMLHeader ++ "<en-note>" ++ n.body ++ "</en-note>"
    else XMLHeader ++ "<en-note></en-note>"
  { n with body := body }

/-! ## Store lookup: GetNote -/

/-- `NoteFilter` (only the fields `GetNote` populates matter here). -/
structure NoteFilter where
  notebookGUID : String
  words : String
  order : Int
deriving DecidableEq

/-- Collaborator oracles used by `GetNote`: the local store's saved-search
results (`db.GetSearch`), notebook lookup (`findNotebook`), and the remote
search (`ns.FindNotes`).  Each `Except` value is the opaque outcome of the
corresponding call. -/
structure StoreEnv where
  savedSearch : Except String (List Note)
  findNotebook : String → Except String Notebook
  findNotes : NoteFilter → Nat → Nat → Except String (List Note)

/-- The remote-search tail of `GetNote` (the code after the numeric-index
shortcut): build a filter, run `ns.FindNotes(filter, 0, 20)`, return the
first exact title match or `ErrNoNoteFound`.  The boolean records whether
`ns.FindNotes` was invoked. -/
def getNoteSearch (env : StoreEnv) (title notebook : String) :
    Except String Note × Bool :=
  let filterE : Except String NoteFilter :=
    if notebook ≠ "" then
      match env.findNotebook notebook with
      | .error e => .error e
      | .ok nb => .ok { notebookGUID := nb.guid, words := title, order := 0 }
    else .ok { notebookGUID := "", words := title, order := 0 }
  match filterE with
  | .error e => (.error e, false)
  | .ok filt =>
    match env.findNotes filt 0 20 with
    | .error e => (.error e, true)
    | .ok notes =>
      match notes.find? (fun n => n.title = title) with
      | some n => (.ok n, true)
      | none => (.error "no note found", true)

/-- `GetNote`: when the lookup term parses as a positive integer `k` and the
saved search has at least `k` entries, the `k`-th saved result is returned
directly; otherwise it falls through to the remote search.  The boolean
records whether `ns.FindNotes` was invoked. -/
def GetNote (env : StoreEnv) (title notebook : String) :
    Except String Note × Bool :=
  match goAtoi title with
  | some index =>
    if hpos : 0 < index then
      match env.savedSearch with
      | .error e => (.error e, false)
      | .ok notes =>
        if hle : index ≤ (notes.length : Int) then
          (.ok (notes.get ⟨(index - 1).toNat, by omega⟩), false)
        else getNoteSearch env title notebook
    else getNoteSearch env title notebook
  | none => getNoteSearch env title notebook

/-! ## EditSession: EditNote -/

/-- Collaborator oracles for one `EditNote` run.  Fallible cache-file
operations other than the editor invocation are modeled as succeeding (the
cache-file provider is an out-of-scope collaborator and those failures only
abort the session early). -/
structure EditEnv where
  /-- Result of `db.GetNoteRecoveryPoint()` (note value, error). -/
  recoveryNote : Note
  recoveryErr : Option String
  /-- Result of `GetNoteWithContent(db, ns, title)`. -/
  fetched : Except String Note
  /-- `GetNotebook(ns, guid)`. -/
  getNotebook : String → Except String Notebook
  /-- `FindNotebook(db, ns, name)`. -/
  findNotebook : String → Except String Notebook
  /-- The external editor: document text written, document text read back. -/
  editorOut : String → String
  /-- Failure of the editor invocation `client.Edit`. -/
  editorErr : Option String
  /-- Content read from stdin in `StdinNote` mode. -/
  stdinContent : String
  /-- The external converter `markdown.ToXML`. -/
  mdToXML : String → String
  /-- Outcome of `ns.UpdateNote` on a given note. -/
  updateErr : Note → Option String
  /-- Outcome of `db.SaveNoteRecoveryPoint` on a given note. -/
  recoverySaveErr : Note → Option String

/-- Observable outcome of an `EditNote` run: the returned error, the note
passed to `ns.UpdateNote` (if any), and the note passed to
`db.SaveNoteRecoveryPoint` (if any). -/
structure EditResult where
  err : Option String
  updated : Option Note
  recovered : Option Note
deriving DecidableEq

/-- `getNotebookName`: the notebook name or the empty string. -/
def getNotebookName (note : Note) : String :=
  match note.notebook with
  | none => ""
  | some b => b.name

/-- `checkForNotebookAndUpdate`: when the parsed notebook name differs from
the initial one, re-resolve the notebook by name via `FindNotebook`. -/
def checkForNotebookAndUpdate (env : EditEnv) (note : Note)
    (initialNotebook : String) : Except String Note :=
  match note.notebook with
  | none => .ok note
  | some b =>
    if initialNotebook = b.name then .ok note
    else
      match env.findNotebook b.name with
      | .error e => .error e
      | .ok b2 => .ok { note with notebook := some b2 }

/-- `saveChanges`: optionally re-wrap the content for the wire format
(overwriting `Body` in place) and issue `ns.UpdateNote`; returns the note
as sent together with the update outcome. -/
def saveChanges (env : EditEnv) (n : Note) (updateContent useRawContent : Bool) :
    Note × Option String :=
  let sent :=
    if updateContent then
      { n with body :=
          if useRawContent then XMLHeader ++ "<en-note>" ++ n.body ++ "</en-note>"
          else toXML env.mdToXML n.md }
    else n
  (sent, env.updateErr sent)

/-- `SaveChanges`: `saveChanges` with content update, raw per the option. -/
def SaveChanges (env : EditEnv) (n : Note) (opts : NoteOption) :
    Note × Option String :=
  saveChanges env n true opts.raw

/-- The `editNote` helper: inject stdin content (both `MD` and `Body`) in
stdin mode, write the document, hand it to the editor (not in stdin mode),
and return the note together with the document text that will be
re-parsed. -/
def editNote (env : EditEnv) (note : Note) (opts : NoteOption) :
    Except String (Note × String) :=
  if opts.stdin then
    .ok ({ note with md := env.stdinContent, body := env.stdinContent },
      WriteNote { note with md := env.stdinContent, body := env.stdinContent } opts)
  else
    match env.editorErr with
    | some e => .error e
    | none => .ok (note, env.editorOut (WriteNote note opts))

/-- Save tail of `EditNote`: `SaveChanges`, and on failure the
recovery-point handoff with the composite error message when that write
also fails. -/
def editNoteSave (env : EditEnv) (note : Note) (opts : NoteOption) :
    Option EditResult :=
  match SaveChanges env note opts with
  | (sent, none) => some { err := none, updated := some sent, recovered := none }
  | (sent, some e) =>
    match env.recoverySaveErr sent with
    | none => some { err := some e, updated := some sent, recovered := some sent }
    | some se =>
      some { err := some ("Error when saving note: " ++ e ++
               "\nFailed to create recovery point: " ++ se),
             updated := some sent, recovered := some sent }

/-- Body of `EditNote` after the note has been obtained: capture the hash,
dereference `note.Notebook.GUID` (a nil notebook is a nil-pointer
dereference, `none`), resolve the notebook, run the editor round trip,
re-parse, resolve a renamed notebook, and either finish as a no-op or
save.  Mirrors the statement sequence of the Go function. -/
def editNoteSession (env : EditEnv) (note : Note) (opts : NoteOption) :
    Option EditResult :=
  match note.notebook with
  | none => none
  | some nb0 =>
    match env.getNotebook nb0.guid with
    | .error e => some { err := some e, updated := none, recovered := none }
    | .ok nb =>
      match editNote env { note with notebook := some nb } opts with
      | .error e => some { err := some e, updated := none, recovered := none }
      | .ok (note1, text) =>
        match checkForNotebookAndUpdate env (parseNote text note1 opts)
            (getNotebookName { note with notebook := some nb }) with
        | .error e => some { err := some e, updated := none, recovered := none }
        | .ok note3 =>
          match note3.notebook with
          | none => none
          | some b =>
            if note.Hash opts.raw = note3.Hash opts.raw ∧
                getNotebookName { note with notebook := some nb } = b.name then
              some { err := none, updated := none, recovered := none }
            else editNoteSave env note3 opts

/-- The obtain step of `EditNote`: the recovery-point note (whose empty
GUID is reported as `ErrNoNoteFound` before the error is consulted) or the
fetched note. -/
def editNoteObtain (env : EditEnv) (opts : NoteOption) : Except String Note :=
  if opts.useRecoveryPoint then
    if env.recoveryNote.guid = "" then .error "no note found"
    else
      match env.recoveryErr with
      | some e => .error e
      | none => .ok env.recoveryNote
  else env.fetched

/-- `EditNote`: obtain the note, then run the edit session. -/
def EditNote (env : EditEnv) (opts : NoteOption) : Option EditResult :=
  match editNoteObtain env opts with
  | .error e => some { err := some e, updated := none, recovered := none }
  | .ok note => editNoteSession env note opts

/-! ## General string and list lemmas -/

theorem str_ext {a b : String} (h : a.data = b.data) : a = b := by
  cases a; cases b; exact congrArg String.mk h

@[simp] theorem mk_data (s : String) : String.mk s.data = s := rfl

theorem str_assoc (a b c : String) : a ++ b ++ c = a ++ (b ++ c) :=
  str_ext (by simp [String.data_append])

theorem length_dropWhile_le (p : Char → Bool) (l : List Char) :
    (l.dropWhile p).length ≤ l.length := by
  induction l with
  | nil => simp
  | cons x xs ih =>
    rw [List.dropWhile_cons]
    split
    · exact Nat.le_trans ih (Nat.le_succ _)
    · simp

theorem dropWhile_eq_self_of_length {p : Char → Bool} {l : List Char}
    (h : (l.dropWhile p).length = l.length) : l.dropWhile p = l := by
  cases l with
  | nil => simp
  | cons x xs =>
    by_cases hp : p x = true
    · exfalso
      rw [List.dropWhile_cons, if_pos hp] at h
      have := length_dropWhile_le p xs
      simp at h
      omega
    · rw [List.dropWhile_cons, if_neg hp]

theorem getLast?_ne_of_forall {l : List Char} {c : Char}
    (h : ∀ x ∈ l, x ≠ c) : l.getLast? ≠ some c := by
  cases hl : l.getLast? with
  | none => simp
  | some x =>
    intro he
    rcases l with _ | ⟨y, ys⟩
    · simp at hl
    · have hx : x ∈ y :: ys := by
        rw [List.getLast?_eq_getLast _ (by simp)] at hl
        exact (Option.some.injEq _ _ ▸ hl) ▸ List.getLast_mem _
      exact h x hx (by injection he)

theorem dropCR_eq_self {l : List Char} (h : l.getLast? ≠ some '\r') :
    dropCR l = l := by
  unfold dropCR
  rw [if_neg h]

/-! ## Scanning lemmas -/

theorem scanLinesAux_break (a : List Char) : ∀ (acc b : List Char), '\n' ∉ a →
    scanLinesAux (a ++ '\n' :: b) acc = dropCR (acc ++ a) :: scanLinesAux b [] := by
  induction a with
  | nil => intro acc b _; simp [scanLinesAux]
  | cons c a ih =>
    intro acc b h
    have hc : ¬(c = '\n') := fun e => h (by simp [e])
    rw [List.cons_append, scanLinesAux, if_neg hc,
      ih (acc ++ [c]) b (fun hm => h (List.mem_cons_of_mem _ hm))]
    simp

theorem scanLines_line_cons (l rest : String) (h1 : '\n' ∉ l.data)
    (h2 : l.data.getLast? ≠ some '\r') :
    scanLines (l ++ "\n" ++ rest) = l :: scanLines rest := by
  unfold scanLines
  have hd : (l ++ "\n" ++ rest).data = l.data ++ '\n' :: rest.data := by
    simp [String.data_append]
  rw [hd, scanLinesAux_break _ _ _ h1]
  simp [dropCR_eq_self h2]

theorem scanLines_strJoin (hls : List String) (rest : String)
    (h : ∀ l ∈ hls, '\n' ∉ l.data ∧ l.data.getLast? ≠ some '\r') :
    scanLines (strJoin (hls.map (· ++ "\n")) ++ rest) = hls ++ scanLines rest := by
  induction hls with
  | nil =>
    simp only [List.map_nil, List.nil_append]
    rw [show strJoin ([] : List String) ++ rest = rest from
      str_ext (by simp [String.data_append, strJoin])]
  | cons l hls ih =>
    have h1 := h l (by simp)
    rw [List.map_cons, strJoin, str_assoc, scanLines_line_cons l _ h1.1 h1.2,
      ih (fun x hx => h x (by simp [hx])), List.cons_append]

theorem strJoin_scanLinesAux (a : List Char) : ∀ (acc : List Char), '\r' ∉ a → '\r' ∉ acc →
    strJoin ((scanLinesAux (a ++ ['\n']) acc).map (fun l => String.mk l ++ "\n")) =
      String.mk acc ++ (String.mk a ++ "\n") := by
  induction a with
  | nil =>
    intro acc _ h2
    have hcr : dropCR acc = acc :=
      dropCR_eq_self (getLast?_ne_of_forall (fun x hx e => h2 (e ▸ hx)))
    show strJoin ((scanLinesAux ('\n' :: []) acc).map _) = _
    rw [scanLinesAux, if_pos rfl]
    simp only [scanLinesAux, List.isEmpty_nil, if_pos, List.map_cons, List.map_nil,
      strJoin, hcr]
    exact str_ext (by simp [String.data_append])
  | cons c a ih =>
    intro acc h1 h2
    by_cases hc : c = '\n'
    · subst hc
      rw [List.cons_append, scanLinesAux, if_pos rfl, List.map_cons, strJoin,
        ih [] (fun hm => h1 (List.mem_cons_of_mem _ hm)) (by simp)]
      have hcr : dropCR acc = acc :=
        dropCR_eq_self (getLast?_ne_of_forall (fun x hx e => h2 (e ▸ hx)))
      rw [hcr]
      exact str_ext (by simp [String.data_append])
    · rw [List.cons_append, scanLinesAux, if_neg hc,
        ih (acc ++ [c]) (fun hm => h1 (List.mem_cons_of_mem _ hm))
          (by intro hm
              rcases List.mem_append.mp hm with hmem | hmem
              · exact h2 hmem
              · simp at hmem
                exact h1 (by rw [hmem]; exact List.mem_cons_self _ _))]
      exact str_ext (by simp [String.data_append])

theorem strJoin_scanLines (s : String) (h : '\r' ∉ s.data) :
    strJoin ((scanLines (s ++ "\n")).map (· ++ "\n")) = s ++ "\n" := by
  unfold scanLines
  have hd : (s ++ "\n").data = s.data ++ ['\n'] := by simp [String.data_append]
  rw [hd, List.map_map]
  have := strJoin_scanLinesAux s.data [] h (by simp)
  simpa [Function.comp] using this

/-! ## Trimming lemmas -/

theorem trim_stable_parts {p : Char → Bool} {d : List Char}
    (h : trimEndP p (trimStartP p d) = d) :
    d.dropWhile p = d ∧ d.reverse.dropWhile p = d.reverse := by
  unfold trimStartP trimEndP at h
  have hlen1 : (((d.dropWhile p).reverse.dropWhile p).reverse).length
      ≤ (d.dropWhile p).length := by
    rw [List.length_reverse]
    calc ((d.dropWhile p).reverse.dropWhile p).length
        ≤ (d.dropWhile p).reverse.length := length_dropWhile_le _ _
      _ = (d.dropWhile p).length := List.length_reverse _
  have hlen2 : (d.dropWhile p).length ≤ d.length := length_dropWhile_le _ _
  have hlen0 := congrArg List.length h
  have hstart : d.dropWhile p = d := dropWhile_eq_self_of_length (by omega)
  rw [hstart] at h
  refine ⟨hstart, ?_⟩
  have h2 := congrArg List.reverse h
  rw [List.reverse_reverse] at h2
  exact h2

theorem dropWhile_head_false {p : Char → Bool} {x : Char} {t : List Char}
    (h : (x :: t).dropWhile p = x :: t) : p x = false := by
  by_cases hp : p x = true
  · exfalso
    rw [List.dropWhile_cons, if_pos hp] at h
    have h1 := length_dropWhile_le p t
    have h2 := congrArg List.length h
    simp at h2
    omega
  · simpa using hp

theorem trimNL_append_newline {c : String} (h : trimNL c = c) :
    trimNL (c ++ "\n") = c := by
  have hd : trimEndP (fun x => x = '\n') (trimStartP (fun x => x = '\n') c.data) = c.data :=
    congrArg String.data h
  obtain ⟨hstart, hend⟩ := trim_stable_parts hd
  cases hcd : c.data with
  | nil =>
    have hc : c = "" := str_ext (by simp [hcd])
    subst hc
    decide
  | cons x t =>
    rw [hcd] at hstart hend
    have hx : (decide (x = '\n')) = false := dropWhile_head_false hstart
    apply str_ext
    show trimEndP _ (trimStartP _ (c ++ "\n").data) = c.data
    rw [String.data_append, hcd, show ("\n" : String).data = ['\n'] from rfl]
    have h1 : trimStartP (fun x => x = '\n') ((x :: t) ++ ['\n']) = (x :: t) ++ ['\n'] := by
      unfold trimStartP
      rw [List.cons_append, List.dropWhile_cons, if_neg (by simp [hx])]
    rw [h1]
    unfold trimEndP
    rw [List.reverse_append, show (['\n'] : List Char).reverse = ['\n'] from rfl,
      List.singleton_append, List.dropWhile_cons, if_pos (by simp), hend,
      List.reverse_reverse]

/-! ## Header line shape lemmas -/

theorem titleLine_ne_headSep (t : String) : headTitleField ++ " " ++ t ≠ headSep := by
  intro h
  have hd : ('t' :: 'i' :: 't' :: 'l' :: 'e' :: ':' :: ' ' :: t.data)
      = ('-' :: '-' :: '-' :: []) := congrArg String.data h
  simp at hd

theorem nbLine_ne_headSep (nm : String) :
    headNotebookNameField ++ headSpace ++ nm ≠ headSep := by
  intro h
  have hd : ('n' :: 'o' :: 't' :: 'e' :: 'b' :: 'o' :: 'o' :: 'k' :: ':' :: ' ' :: nm.data)
      = ('-' :: '-' :: '-' :: []) := congrArg String.data h
  simp at hd

theorem parseHeaderLines_sep (ls : List String) (n : Note) :
    parseHeaderLines (headSep :: ls) n = (n, ls) := by
  unfold parseHeaderLines
  rw [if_pos rfl]

theorem findHeaderStart_sep (ls : List String) :
    findHeaderStart (headSep :: ls) = ls := by
  unfold findHeaderStart
  rw [if_pos rfl]

theorem parseHeaderLines_title (t : String) (ls : List String) (n : Note)
    (ht : goTrimSpace t = t) :
    parseHeaderLines ((headTitleField ++ " " ++ t) :: ls) n =
      parseHeaderLines ls { n with title := t } := by
  conv_lhs => unfold parseHeaderLines
  rw [if_neg (titleLine_ne_headSep t),
    if_pos (show headTitleField.data.isPrefixOf ((headTitleField ++ " " ++ t).data) = true
      from rfl),
    show strDrop (headTitleField ++ " " ++ t) headTitleField.length = " " ++ t from rfl,
    show goTrimSpace (" " ++ t) = goTrimSpace t from rfl, ht]

theorem parseHeaderLines_nb (nm : String) (ls : List String) (n : Note)
    (h : goTrimSpace nm = nm) :
    parseHeaderLines ((headNotebookNameField ++ headSpace ++ nm) :: ls) n =
      parseHeaderLines ls { n with notebook := some (
        match n.notebook with
        | none => { name := nm, guid := "" }
        | some b => { b with name := nm }) } := by
  conv_lhs => unfold parseHeaderLines
  rw [if_neg (nbLine_ne_headSep nm),
    if_neg (show ¬(headTitleField.data.isPrefixOf
        ((headNotebookNameField ++ headSpace ++ nm).data) = true) by
      rw [show headTitleField.data.isPrefixOf
        ((headNotebookNameField ++ headSpace ++ nm).data) = false from rfl]
      simp),
    if_pos (show headNotebookNameField.data.isPrefixOf
      ((headNotebookNameField ++ headSpace ++ nm).data) = true from rfl),
    show strDrop (headNotebookNameField ++ headSpace ++ nm) headNotebookNameField.length
      = " " ++ nm from rfl,
    show goTrimSpace (" " ++ nm) = goTrimSpace nm from rfl, h]

/-! ## Safety predicates for the round-trip law -/

/-- A header field value survives the round trip when it contains no line
breaks and is stable under Go whitespace trimming. -/
def LineSafe (s : String) : Prop :=
  (∀ c ∈ s.data, c ≠ '\n' ∧ c ≠ '\r') ∧ goTrimSpace s = s

/-- A content field survives the round trip when it contains no carriage
returns and is stable under newline trimming at both ends. -/
def ContentSafe (s : String) : Prop :=
  '\r' ∉ s.data ∧ trimNL s = s

instance (s : String) : Decidable (LineSafe s) := by
  unfold LineSafe
  infer_instance

instance (s : String) : Decidable (ContentSafe s) := by
  unfold ContentSafe
  infer_instance

theorem lineSafe_concat (pre t : String)
    (h1 : '\n' ∉ pre.data) (h3 : pre.data.getLast? ≠ some '\r')
    (ht : ∀ c ∈ t.data, c ≠ '\n' ∧ c ≠ '\r') :
    '\n' ∉ (pre ++ t).data ∧ (pre ++ t).data.getLast? ≠ some '\r' := by
  constructor
  · rw [String.data_append]
    intro hm
    rcases List.mem_append.mp hm with hmem | hmem
    · exact h1 hmem
    · exact (ht _ hmem).1 rfl
  · rw [String.data_append]
    cases htd : t.data with
    | nil => rw [List.append_nil]; exact h3
    | cons y ys =>
      rw [List.getLast?_append_of_ne_nil _ (by simp)]
      exact getLast?_ne_of_forall (fun x hx e => (ht x (by rw [htd]; exact hx)).2 e)

theorem writeNoteHeaderLines_safe (n : Note) (ht : LineSafe n.title)
    (hb : ∀ b, n.notebook = some b → b.name = "" ∨ LineSafe b.name) :
    ∀ l ∈ writeNoteHeaderLines n, '\n' ∉ l.data ∧ l.data.getLast? ≠ some '\r' := by
  intro l hl
  unfold writeNoteHeaderLines at hl
  have hsep : '\n' ∉ headSep.data ∧ headSep.data.getLast? ≠ some '\r' := by
    constructor <;> decide
  have htl := lineSafe_concat (headTitleField ++ " ") n.title
      (by decide) (by decide) ht.1
  cases hnb : n.notebook with
  | none =>
    rw [hnb] at hl
    simp at hl
    rcases hl with h | h | h <;> subst h
    · exact hsep
    · exact htl
    · exact hsep
  | some b =>
    rw [hnb] at hl
    by_cases hname : b.name = ""
    · simp [hname] at hl
      rcases hl with h | h | h <;> subst h
      · exact hsep
      · exact htl
      · exact hsep
    · have hbn := (hb b hnb).resolve_left hname
      have hnl := lineSafe_concat (headNotebookNameField ++ headSpace) b.name
          (by decide) (by decide) hbn.1
      simp [hname] at hl
      rcases hl with h | h | h | h <;> subst h
      · exact hsep
      · exact htl
      · exact hnl
      · exact hsep

/-! ## Round-trip computation -/

theorem parseContent_scan (c : String) (m : Note) (opts : NoteOption)
    (hcr : '\r' ∉ c.data) (hst : trimNL c = c) :
    parseContent (scanLines (c ++ "\n")) m opts =
      if opts.raw then { m with body := c } else { m with md := c } := by
  unfold parseContent
  rw [strJoin_scanLines c hcr, trimNL_append_newline hst]

/-- Complete characterization of re-parsing a written document into a fresh
note, under the safety side conditions: the title round-trips, an emitted
notebook line reconstructs a GUID-less notebook, an absent (or empty-named)
notebook stays absent, and the selected content field round-trips while the
unselected one stays empty. -/
theorem parse_write_eq (n : Note) (opts : NoteOption)
    (ht : LineSafe n.title)
    (hb : ∀ b, n.notebook = some b → b.name = "" ∨ LineSafe b.name)
    (hc : ContentSafe (if opts.raw then n.body else n.md)) :
    parseNote (WriteNote n opts) freshNote opts =
      { freshNote with
        title := n.title,
        notebook := match n.notebook with
          | some b => if b.name = "" then none else some { name := b.name, guid := "" }
          | none => none,
        body := if opts.raw then n.body else "",
        md := if opts.raw then "" else n.md } := by
  have hdoc : WriteNote n opts =
      strJoin ((writeNoteHeaderLines n).map (· ++ "\n")) ++
        ((if opts.raw then n.body else n.md) ++ "\n") := by
    unfold WriteNote writeNoteHeader
    rw [str_assoc]
  have hscan : scanLines (WriteNote n opts) =
      writeNoteHeaderLines n ++ scanLines ((if opts.raw then n.body else n.md) ++ "\n") := by
    rw [hdoc, scanLines_strJoin _ _ (writeNoteHeaderLines_safe n ht hb)]
  unfold parseNote parseHeader
  rw [hscan]
  cases hnb : n.notebook with
  | none =>
    have hlines : writeNoteHeaderLines n =
        [headSep, headTitleField ++ " " ++ n.title, headSep] := by
      unfold writeNoteHeaderLines
      rw [hnb]
      simp
    rw [hlines]
    simp only [List.cons_append, List.nil_append]
    rw [findHeaderStart_sep, parseHeaderLines_title _ _ _ ht.2, parseHeaderLines_sep,
      parseContent_scan _ _ _ hc.1 hc.2]
    cases hr : opts.raw <;> simp [hr, freshNote]
  | some b =>
    by_cases hname : b.name = ""
    · have hlines : writeNoteHeaderLines n =
          [headSep, headTitleField ++ " " ++ n.title, headSep] := by
        unfold writeNoteHeaderLines
        rw [hnb]
        simp [hname]
      rw [hlines]
      simp only [List.cons_append, List.nil_append]
      rw [findHeaderStart_sep, parseHeaderLines_title _ _ _ ht.2, parseHeaderLines_sep,
        parseContent_scan _ _ _ hc.1 hc.2]
      cases hr : opts.raw <;> simp [hr, hname, freshNote]
    · have hbn := (hb b hnb).resolve_left hname
      have hlines : writeNoteHeaderLines n =
          [headSep, headTitleField ++ " " ++ n.title,
           headNotebookNameField ++ headSpace ++ b.name, headSep] := by
        unfold writeNoteHeaderLines
        rw [hnb]
        simp [hname]
      rw [hlines]
      simp only [List.cons_append, List.nil_append]
      rw [findHeaderStart_sep, parseHeaderLines_title _ _ _ ht.2,
        parseHeaderLines_nb _ _ _ hbn.2, parseHeaderLines_sep,
        parseContent_scan _ _ _ hc.1 hc.2]
      cases hr : opts.raw <;> simp [hr, hname, freshNote]

/-! ## Claim C1: document round-trip law -/

/-- C1 counterexample: the round-trip law fails as universally stated.  For
the note with Title " x " (whitespace-padded), writing and re-parsing
yields Title "x" because `parseHeader` trims the header value while
`WriteNote` emits it verbatim. -/
theorem C1_counterexample :
    (parseNote (WriteNote { freshNote with title := " x " } DefaultNoteOption)
        freshNote DefaultNoteOption).title ≠
      ({ freshNote with title := " x " } : Note).title := by
  decide

/-- C1 (amended): parsing the text produced by writing `n` into a fresh note
yields equal Title, Notebook name and selected content field, and an absent
Notebook stays absent — provided the Title and Notebook name are single-line
and trim-stable and the selected content has no carriage returns and no
leading/trailing newlines (the counterexample shows the law fails without
these side conditions). -/
theorem C1_roundtrip (n : Note) (opts : NoteOption)
    (ht : LineSafe n.title)
    (hb : ∀ b, n.notebook = some b → b.name = "" ∨ LineSafe b.name)
    (hc : ContentSafe (if opts.raw then n.body else n.md)) :
    (parseNote (WriteNote n opts) freshNote opts).title = n.title ∧
    getNotebookName (parseNote (WriteNote n opts) freshNote opts) = getNotebookName n ∧
    (opts.raw = true → (parseNote (WriteNote n opts) freshNote opts).body = n.body) ∧
    (opts.raw = false → (parseNote (WriteNote n opts) freshNote opts).md = n.md) ∧
    (n.notebook = none → (parseNote (WriteNote n opts) freshNote opts).notebook = none) := by
  rw [parse_write_eq n opts ht hb hc]
  refine ⟨rfl, ?_, fun h => by simp [h], fun h => by simp [h], fun h => by simp [h]⟩
  cases hnb : n.notebook with
  | none => simp [getNotebookName, hnb]
  | some b =>
    by_cases hname : b.name = "" <;> simp [getNotebookName, hnb, hname]

/-- Concrete note used by the C1 witness. -/
def c1Note : Note :=
  { freshNote with
    title := "Groceries"
    md := "milk\neggs"
    notebook := some { name := "Inbox", guid := "g1" } }

/-- C1 witness: round trip at a concrete note with title, markdown content
and a notebook. -/
theorem C1_witness :
    (parseNote (WriteNote c1Note DefaultNoteOption)
      freshNote DefaultNoteOption).title = "Groceries" :=
  (C1_roundtrip c1Note DefaultNoteOption
    (by decide)
    (fun b hb => Or.inr ((Option.some.inj hb) ▸ (by decide : LineSafe "Inbox")))
    (by decide)).1

/-! ## Claim C6: trailing newline on write -/

/-- Modelled from the spec sentence behind C6, NOT from the source: header
block, then the selected content, then a newline appended only when the
content does not already end in one.  Compared against `WriteNote`. -/
def WriteNoteClaimed (n : Note) (opts : NoteOption) : String :=
  writeNoteHeader n ++ (if opts.raw then n.body else n.md) ++
    (if (if opts.raw then n.body else n.md).data.getLast? = some '\n' then "" else "\n")

/-- C6 counterexample: for content that already ends in a newline the code
still appends one (the append is unconditional), so the output differs from
the claimed conditional-append behavior and ends in two newlines. -/
theorem C6_counterexample :
    WriteNote { freshNote with md := "a\n" } DefaultNoteOption ≠
      WriteNoteClaimed { freshNote with md := "a\n" } DefaultNoteOption := by
  decide

/-- C6 (amended): `WriteNote` emits the header block, the selected content,
and then one unconditionally appended newline; consequently the output
always ends in a newline (but in two when the content already ended in
one, not in "exactly" one). -/
theorem C6_write_newline (n : Note) (opts : NoteOption) :
    WriteNote n opts =
      writeNoteHeader n ++ (if opts.raw then n.body else n.md) ++ "\n" ∧
    (WriteNote n opts).data.getLast? = some '\n' := by
  refine ⟨rfl, ?_⟩
  show ((writeNoteHeader n ++ (if opts.raw then n.body else n.md)) ++ "\n").data.getLast?
    = some '\n'
  rw [String.data_append, show ("\n" : String).data = ['\n'] from rfl]
  exact List.getLast?_concat _

/-! ## Claim C7: headerless document boundary -/

/-- C7: parsing the delimiter-free document "milk\neggs\n" in non-raw mode
consumes all input searching for the header start, leaves every field of
the note unchanged, and sets MD to the empty string. -/
theorem C7_headerless (n : Note) (b2 b3 : Bool) :
    parseNote "milk\neggs\n" n { raw := false, useRecoveryPoint := b2, stdin := b3 }
      = { n with md := "" } := rfl

/-! ## Claim C4: empty new-note wire content -/

/-- C4: a brand-new note saved non-raw with empty MD gets exactly the fixed
envelope with an empty root element as its Body; the result is the same for
every converter `conv`, which expresses that the markdown converter is not
consulted. -/
theorem C4_empty_new_note (conv : String → String) (n : Note)
    (_h1 : n.guid = "") (h2 : n.md = "") :
    SaveNewNote conv n false = { n with body := XMLHeader ++ "<en-note></en-note>" } := by
  unfold SaveNewNote
  rw [h2]
  simp

/-- C4 witness: the fresh note with an arbitrary converter. -/
theorem C4_witness :
    SaveNewNote (fun s => "X" ++ s) freshNote false
      = { freshNote with body := XMLHeader ++ "<en-note></en-note>" } :=
  C4_empty_new_note (fun s => "X" ++ s) freshNote rfl rfl

/-! ## Claim C5: notebook invariant -/

/-- The invariant claimed by the spec: the Notebook field is either absent
or carries a non-empty name. -/
def NotebookNonEmptyName (n : Note) : Prop :=
  ∀ b, n.notebook = some b → b.name ≠ ""

/-- C5 counterexample: header parsing violates the claimed invariant — a
document whose notebook line has an empty value makes `parseHeader` lazily
allocate a Notebook and assign it the empty name. -/
theorem C5_counterexample :
    ¬ NotebookNonEmptyName
      (parseNote "---\nnotebook:\n---\n" freshNote DefaultNoteOption) :=
  fun h => h { name := "", guid := "" } (by decide) rfl

theorem findHeaderStart_mem : ∀ (ls : List String) (l : String),
    l ∈ findHeaderStart ls → l ∈ ls := by
  intro ls
  induction ls with
  | nil => intro l h; exact absurd h (by simp [findHeaderStart])
  | cons x xs ih =>
    intro l h
    unfold findHeaderStart at h
    by_cases hx : x = headSep
    · rw [if_pos hx] at h
      exact List.mem_cons_of_mem _ h
    · rw [if_neg hx] at h
      exact List.mem_cons_of_mem _ (ih l h)

theorem parseContent_notebook (ls : List String) (m : Note) (opts : NoteOption) :
    (parseContent ls m opts).notebook = m.notebook := by
  unfold parseContent
  split <;> rfl

theorem parseHeaderLines_nonEmptyName : ∀ (ls : List String) (n : Note),
    (∀ l ∈ ls, headNotebookNameField.data.isPrefixOf l.data →
      goTrimSpace (strDrop l headNotebookNameField.length) ≠ "") →
    NotebookNonEmptyName n → NotebookNonEmptyName (parseHeaderLines ls n).1 := by
  intro ls
  induction ls with
  | nil => intro n _ hinv; exact hinv
  | cons l ls ih =>
    intro n hls hinv
    unfold parseHeaderLines
    by_cases h1 : l = headSep
    · rw [if_pos h1]
      exact hinv
    · rw [if_neg h1]
      by_cases h2 : headTitleField.data.isPrefixOf l.data = true
      · rw [if_pos h2]
        refine ih _ (fun x hx => hls x (List.mem_cons_of_mem _ hx)) ?_
        intro b hb
        exact hinv b hb
      · rw [if_neg h2]
        by_cases h3 : headNotebookNameField.data.isPrefixOf l.data = true
        · rw [if_pos h3]
          refine ih _ (fun x hx => hls x (List.mem_cons_of_mem _ hx)) ?_
          intro b hb
          have hval := hls l (by simp) h3
          cases hn : n.notebook with
          | none =>
            rw [hn] at hb
            simp at hb
            rw [← hb]
            exact hval
          | some b0 =>
            rw [hn] at hb
            simp at hb
            rw [← hb]
            exact hval
        · rw [if_neg h3]
          exact ih _ (fun x hx => hls x (List.mem_cons_of_mem _ hx)) hinv

/-- C5 (amended): the write side of the invariant holds — a notebook header
line is emitted exactly when a Notebook with non-empty name is set — and
header parsing preserves the nil-or-non-empty-name invariant provided every
notebook line of the document has a non-empty trimmed value (the
counterexample shows an empty-valued notebook line breaks it). -/
theorem C5_notebook_invariant :
    (∀ n : Note,
      (∃ l ∈ writeNoteHeaderLines n, headNotebookNameField.data.isPrefixOf l.data) ↔
        ∃ b, n.notebook = some b ∧ b.name ≠ "") ∧
    (∀ (text : String) (n : Note) (opts : NoteOption),
      (∀ l ∈ scanLines text, headNotebookNameField.data.isPrefixOf l.data →
        goTrimSpace (strDrop l headNotebookNameField.length) ≠ "") →
      NotebookNonEmptyName n → NotebookNonEmptyName (parseNote text n opts)) := by
  constructor
  · intro n
    constructor
    · rintro ⟨l, hl, hpre⟩
      unfold writeNoteHeaderLines at hl
      cases hnb : n.notebook with
      | none =>
        rw [hnb] at hl
        simp at hl
        rcases hl with h | h | h <;> subst h
        · exact absurd hpre (by decide)
        · rw [show headNotebookNameField.data.isPrefixOf
            ((headTitleField ++ " " ++ n.title).data) = false from rfl] at hpre
          exact Bool.noConfusion hpre
        · exact absurd hpre (by decide)
      | some b =>
        by_cases hname : b.name = ""
        · rw [hnb] at hl
          simp [hname] at hl
          rcases hl with h | h | h <;> subst h
          · exact absurd hpre (by decide)
          · rw [show headNotebookNameField.data.isPrefixOf
              ((headTitleField ++ " " ++ n.title).data) = false from rfl] at hpre
            exact Bool.noConfusion hpre
          · exact absurd hpre (by decide)
        · exact ⟨b, rfl, hname⟩
    · rintro ⟨b, hnb, hname⟩
      refine ⟨headNotebookNameField ++ headSpace ++ b.name, ?_, ?_⟩
      · unfold writeNoteHeaderLines
        rw [hnb]
        simp [hname]
      · exact rfl
  · intro text n opts hls hinv
    unfold parseNote
    intro b hb
    rw [parseContent_notebook] at hb
    refine parseHeaderLines_nonEmptyName (findHeaderStart (scanLines text)) n
      (fun l hl => hls l (findHeaderStart_mem _ _ hl)) hinv b ?_
    exact hb

/-- C5 witness: parsing a document whose notebook line has the non-empty
value "B" into a fresh note cannot produce an empty-named notebook. -/
theorem C5_witness :
    (parseNote "---\nnotebook: B\n---\n" freshNote DefaultNoteOption).notebook ≠
      some { name := "", guid := "" } :=
  fun h =>
    (C5_notebook_invariant.2 "---\nnotebook: B\n---\n" freshNote DefaultNoteOption
      (by decide) (fun _ hb => Option.noConfusion hb))
      { name := "", guid := "" } h rfl

/-! ## Claim C8: numeric-index lookup shortcut -/

/-- C8: when the lookup term parses as a positive integer `k` within the
signed 64-bit range and the saved search holds at least `k` notes, `GetNote`
returns the `k`-th saved note (1-based) and the flag recording a
`ns.FindNotes` invocation is false. -/
theorem C8_numeric_lookup (env : StoreEnv) (title notebook : String)
    (k : Int) (notes : List Note)
    (h1 : goAtoi title = some k) (h2 : 0 < k)
    (h3 : env.savedSearch = Except.ok notes)
    (h4 : k ≤ (notes.length : Int)) :
    GetNote env title notebook =
      (Except.ok (notes.getD (k - 1).toNat freshNote), false) := by
  unfold GetNote
  simp only [h1]
  rw [dif_pos h2]
  simp only [h3]
  rw [dif_pos h4]
  have hlt : (k - 1).toNat < notes.length := by omega
  rw [List.getD_eq_getElem notes freshNote hlt]
  rfl

/-- C8 witness: term "2" against a two-element saved search. -/
theorem C8_witness :
    GetNote
      { savedSearch := Except.ok [freshNote, { freshNote with title := "snd" }],
        findNotebook := fun _ => Except.error "x",
        findNotes := fun _ _ _ => Except.error "x" }
      "2" "" =
      (Except.ok ({ freshNote with title := "snd" } : Note), false) := by
  have h := C8_numeric_lookup
    { savedSearch := Except.ok [freshNote, { freshNote with title := "snd" }],
      findNotebook := fun _ => Except.error "x",
      findNotes := fun _ _ _ => Except.error "x" }
    "2" "" 2 [freshNote, { freshNote with title := "snd" }]
    (by decide) (by decide) rfl (by decide)
  rw [h]
  rfl

/-! ## EditSession lemmas -/

theorem parseHeaderLines_notebook_isSome : ∀ (ls : List String) (n : Note),
    n.notebook.isSome → ((parseHeaderLines ls n).1).notebook.isSome := by
  intro ls
  induction ls with
  | nil => intro n h; exact h
  | cons l ls ih =>
    intro n h
    unfold parseHeaderLines
    by_cases h1 : l = headSep
    · rw [if_pos h1]; exact h
    · rw [if_neg h1]
      by_cases h2 : headTitleField.data.isPrefixOf l.data = true
      · rw [if_pos h2]; exact ih _ h
      · rw [if_neg h2]
        by_cases h3 : headNotebookNameField.data.isPrefixOf l.data = true
        · rw [if_pos h3]; exact ih _ rfl
        · rw [if_neg h3]; exact ih _ h

theorem parseNote_notebook_isSome (text : String) (n : Note) (opts : NoteOption)
    (h : n.notebook.isSome) : (parseNote text n opts).notebook.isSome := by
  unfold parseNote parseHeader
  rw [parseContent_notebook]
  exact parseHeaderLines_notebook_isSome _ _ h

theorem checkForNotebookAndUpdate_isSome {env : EditEnv} {note : Note} {ini : String}
    {note3 : Note} (h : checkForNotebookAndUpdate env note ini = Except.ok note3)
    (hs : note.notebook.isSome) : note3.notebook.isSome := by
  unfold checkForNotebookAndUpdate at h
  cases hnb : note.notebook with
  | none =>
    rw [hnb] at h
    injection h with h2
    rw [← h2]
    exact hs
  | some b =>
    rw [hnb] at h
    simp only [] at h
    by_cases hin : ini = b.name
    · rw [if_pos hin] at h
      injection h with h2
      rw [← h2]
      exact hs
    · rw [if_neg hin] at h
      cases hf : env.findNotebook b.name with
      | error e => rw [hf] at h; exact Except.noConfusion h
      | ok b2 =>
        rw [hf] at h
        injection h with h2
        rw [← h2]
        rfl

theorem editNote_ok_notebook {env : EditEnv} {note : Note} {opts : NoteOption}
    {note1 : Note} {text : String}
    (hok : editNote env note opts = Except.ok (note1, text)) :
    note1.notebook = note.notebook := by
  unfold editNote at hok
  cases hst : opts.stdin with
  | true =>
    rw [hst, if_pos rfl] at hok
    injection hok with h2
    injection h2 with ha _
    rw [← ha]
  | false =>
    rw [hst, if_neg (by simp)] at hok
    cases he : env.editorErr with
    | some e => rw [he] at hok; exact Except.noConfusion hok
    | none =>
      rw [he] at hok
      injection hok with h2
      injection h2 with ha _
      rw [← ha]

theorem editNoteSave_isSome (env : EditEnv) (note : Note) (opts : NoteOption) :
    (editNoteSave env note opts).isSome := by
  unfold editNoteSave
  rcases hs : SaveChanges env note opts with ⟨sent, uerr⟩
  cases uerr with
  | none => simp only [hs]; rfl
  | some e =>
    simp only [hs]
    cases env.recoverySaveErr sent <;> rfl

theorem editNoteSession_isSome_of_notebook (env : EditEnv) (note : Note)
    (opts : NoteOption) (nb0 : Notebook) (hnb : note.notebook = some nb0) :
    (editNoteSession env note opts).isSome := by
  unfold editNoteSession
  simp only [hnb]
  split
  · rfl
  · rename_i nb hg
    split
    · rfl
    · rename_i note1 text hed
      split
      · rfl
      · rename_i note3 hcf
        have h3 : note3.notebook.isSome :=
          checkForNotebookAndUpdate_isSome hcf
            (parseNote_notebook_isSome text note1 opts
              (by rw [editNote_ok_notebook hed]; rfl))
        split
        · rename_i hb3
          rw [hb3] at h3
          exact Bool.noConfusion h3
        · split
          · rfl
          · exact editNoteSave_isSome env note3 opts

/-! ## Claim C10: notebook dereference precondition -/

/-- C10: `EditNote` dereferences the obtained note's Notebook pointer
unconditionally, so the run is undefined (`none` in the embedding, a nil
dereference in Go) exactly when the note obtained from the fetch or the
recovery point has an absent Notebook; under the non-nil precondition the
undefined branch is unreachable. -/
theorem C10_notebook_deref (env : EditEnv) (opts : NoteOption) :
    EditNote env opts = none ↔
      ∃ note, editNoteObtain env opts = Except.ok note ∧ note.notebook = none := by
  unfold EditNote
  cases ho : editNoteObtain env opts with
  | error e => simp
  | ok note =>
    show editNoteSession env note opts = none ↔
      ∃ note2, (Except.ok note : Except String Note) = Except.ok note2 ∧
        note2.notebook = none
    constructor
    · intro h
      refine ⟨note, rfl, ?_⟩
      cases hnb : note.notebook with
      | none => rfl
      | some nb0 =>
        have hs := editNoteSession_isSome_of_notebook env note opts nb0 hnb
        rw [h] at hs
        exact Bool.noConfusion hs
    · rintro ⟨note2, he, hnone⟩
      have h2 : note = note2 := by injection he
      subst h2
      unfold editNoteSession
      rw [hnone]

/-- Shape of any completed `EditNote` run: either no update call was made
(and then no recovery call either), or the updated note is the wire-wrapped
`SaveChanges` output of some parsed note, with the error and recovery
observations fixed by the update and recovery outcomes. -/
theorem EditNote_save_shape (env : EditEnv) (opts : NoteOption) (r : EditResult)
    (hr : EditNote env opts = some r) :
    (r.updated = none ∧ r.recovered = none) ∨
    ∃ note3,
      r.updated = some (SaveChanges env note3 opts).1 ∧
      ((env.updateErr (SaveChanges env note3 opts).1 = none ∧
          r.err = none ∧ r.recovered = none) ∨
        ∃ e, env.updateErr (SaveChanges env note3 opts).1 = some e ∧
          r.recovered = some (SaveChanges env note3 opts).1 ∧
          r.err = some (match env.recoverySaveErr (SaveChanges env note3 opts).1 with
            | none => e
            | some se => "Error when saving note: " ++ e ++
                "\nFailed to create recovery point: " ++ se)) := by
  unfold EditNote at hr
  split at hr
  · injection hr with h2
    subst h2
    exact Or.inl ⟨rfl, rfl⟩
  · rename_i note ho
    unfold editNoteSession at hr
    split at hr
    · exact Option.noConfusion hr
    · rename_i nb0 hnb
      split at hr
      · injection hr with h2
        subst h2
        exact Or.inl ⟨rfl, rfl⟩
      · rename_i nb hg
        split at hr
        · injection hr with h2
          subst h2
          exact Or.inl ⟨rfl, rfl⟩
        · rename_i note1 text hed
          split at hr
          · injection hr with h2
            subst h2
            exact Or.inl ⟨rfl, rfl⟩
          · rename_i note3 hcf
            split at hr
            · exact Option.noConfusion hr
            · rename_i b hb3
              split at hr
              · injection hr with h2
                subst h2
                exact Or.inl ⟨rfl, rfl⟩
              · refine Or.inr ⟨note3, ?_⟩
                unfold editNoteSave at hr
                rcases hs : SaveChanges env note3 opts with ⟨sent, uerr⟩
                have hup : env.updateErr sent = uerr := by
                  have h0 : (SaveChanges env note3 opts).2
                      = env.updateErr (SaveChanges env note3 opts).1 := rfl
                  rw [hs] at h0
                  exact h0.symm
                cases uerr with
                | none =>
                  simp only [hs] at hr
                  injection hr with h2
                  subst h2
                  exact ⟨rfl, Or.inl ⟨hup, rfl, rfl⟩⟩
                | some e =>
                  simp only [hs] at hr
                  cases hre : env.recoverySaveErr sent with
                  | none =>
                    simp only [hre] at hr
                    injection hr with h2
                    subst h2
                    exact ⟨rfl, Or.inr ⟨e, hup, rfl, rfl⟩⟩
                  | some se =>
                    simp only [hre] at hr
                    injection hr with h2
                    subst h2
                    exact ⟨rfl, Or.inr ⟨e, hup, rfl, rfl⟩⟩

/-! ## Claim C3: save-failure recovery protocol -/

/-- C3: whenever a completed `EditNote` run issued an update that the store
rejected, the same in-memory note was handed to the recovery-point sink;
the returned error is the original update error when the recovery write
succeeded, and the composite message holding both descriptions when it also
failed. -/
theorem C3_save_failure (env : EditEnv) (opts : NoteOption) (r : EditResult)
    (m : Note) (e : String)
    (hr : EditNote env opts = some r) (hu : r.updated = some m)
    (he : env.updateErr m = some e) :
    r.recovered = some m ∧
    r.err = some (match env.recoverySaveErr m with
      | none => e
      | some se => "Error when saving note: " ++ e ++
          "\nFailed to create recovery point: " ++ se) := by
  rcases EditNote_save_shape env opts r hr with ⟨h1, _⟩ | ⟨note3, hup, hcase⟩
  · rw [h1] at hu
    exact Option.noConfusion hu
  · have hm : (SaveChanges env note3 opts).1 = m := by
      rw [hup] at hu
      exact Option.some.inj hu
    rcases hcase with ⟨hnone, _, _⟩ | ⟨e2, hsome, hrec, herr⟩
    · rw [hm, he] at hnone
      exact Option.noConfusion hnone
    · rw [hm] at hsome hrec herr
      have he2 : some e2 = some e := by rw [← hsome]; exact he
      have he3 : e2 = e := Option.some.inj he2
      subst he3
      exact ⟨hrec, herr⟩

/-! ## Claim C9: recovery note holds the wire-format body -/

/-- C9: the note handed to the recovery-point sink is exactly the note that
was sent to `ns.UpdateNote`, whose Body `saveChanges` had already
overwritten with the wire envelope (around the converted MD in non-raw
mode, around the literal previous Body in raw mode) — not the editable
content the user produced. -/
theorem C9_recovery_wire_body (env : EditEnv) (opts : NoteOption) (r : EditResult)
    (m : Note) (hr : EditNote env opts = some r) (hrec : r.recovered = some m) :
    r.updated = some m ∧
    (opts.raw = false → m.body = toXML env.mdToXML m.md) ∧
    (opts.raw = true → ∃ x, m.body = XMLHeader ++ "<en-note>" ++ x ++ "</en-note>") := by
  rcases EditNote_save_shape env opts r hr with ⟨_, h2⟩ | ⟨note3, hup, hcase⟩
  · rw [h2] at hrec
    exact Option.noConfusion hrec
  · rcases hcase with ⟨_, _, hnone⟩ | ⟨e2, _, hrec2, _⟩
    · rw [hnone] at hrec
      exact Option.noConfusion hrec
    · have hm : (SaveChanges env note3 opts).1 = m := by
        rw [hrec2] at hrec
        exact Option.some.inj hrec
      refine ⟨by rw [hup, hm], ?_, ?_⟩
      · intro hraw
        rw [← hm]
        show (SaveChanges env note3 opts).1.body
          = toXML env.mdToXML (SaveChanges env note3 opts).1.md
        unfold SaveChanges saveChanges
        rw [hraw]
        simp
      · intro hraw
        refine ⟨note3.body, ?_⟩
        rw [← hm]
        show (SaveChanges env note3 opts).1.body = _
        unfold SaveChanges saveChanges
        rw [hraw]
        simp

/-! ## Claim C2: no-op edit performs no remote save -/

/-- C2: an edit session (fetch or recovery path) whose re-parsed note
hashes to the same fingerprint as before the edit and whose resolved
notebook name is unchanged ends with no `ns.UpdateNote` call, no recovery
write, and no error. -/
theorem C2_noop_edit (env : EditEnv) (opts : NoteOption) (note : Note)
    (nb0 nb : Notebook) (note1 : Note) (text : String) (note3 : Note) (b : Notebook)
    (hob : editNoteObtain env opts = Except.ok note)
    (hnb : note.notebook = some nb0)
    (hg : env.getNotebook nb0.guid = Except.ok nb)
    (hed : editNote env { note with notebook := some nb } opts = Except.ok (note1, text))
    (hcf : checkForNotebookAndUpdate env (parseNote text note1 opts)
      (getNotebookName { note with notebook := some nb }) = Except.ok note3)
    (hb3 : note3.notebook = some b)
    (hh : note.Hash opts.raw = note3.Hash opts.raw)
    (hbn : getNotebookName { note with notebook := some nb } = b.name) :
    EditNote env opts = some { err := none, updated := none, recovered := none } := by
  unfold EditNote
  simp only [hob]
  unfold editNoteSession
  simp only [hnb, hg, hed, hcf, hb3]
  rw [if_pos ⟨hh, hbn⟩]

/-! ## Concrete edit sessions for the witnesses -/

/-- A stored note with a resolved notebook, used by the C2 witness. -/
def c2Note : Note :=
  { freshNote with
    title := "T"
    guid := "id"
    body := "B"
    md := "M"
    notebook := some { name := "Book", guid := "g" } }

/-- Environment of a no-op edit session: the editor returns the document
unchanged and every collaborator call succeeds. -/
def c2Env : EditEnv :=
  { recoveryNote := freshNote
    recoveryErr := none
    fetched := Except.ok c2Note
    getNotebook := fun _ => Except.ok { name := "Book", guid := "g" }
    findNotebook := fun _ => Except.ok { name := "Book", guid := "g" }
    editorOut := fun s => s
    editorErr := none
    stdinContent := ""
    mdToXML := fun s => s
    updateErr := fun _ => none
    recoverySaveErr := fun _ => none }

/-- C2 witness: the identity-editor session ends with no update call. -/
theorem C2_witness :
    EditNote c2Env DefaultNoteOption
      = some { err := none, updated := none, recovered := none } :=
  C2_noop_edit c2Env DefaultNoteOption c2Note
    { name := "Book", guid := "g" } { name := "Book", guid := "g" }
    c2Note (WriteNote c2Note DefaultNoteOption) c2Note
    { name := "Book", guid := "g" }
    rfl rfl rfl rfl rfl rfl rfl rfl

/-- The note fetched in the failing edit session of the C3 and C9
witnesses. -/
def c3Note : Note :=
  { freshNote with
    title := "T"
    guid := "id"
    md := "M"
    notebook := some { name := "Book", guid := "g" } }

/-- Environment of a failing edit session: the editor rewrites the document
(title T2, content M2), the remote update fails with "boom" and the
recovery-point write fails with "disk full". -/
def c3Env : EditEnv :=
  { recoveryNote := freshNote
    recoveryErr := none
    fetched := Except.ok c3Note
    getNotebook := fun _ => Except.ok { name := "Book", guid := "g" }
    findNotebook := fun _ => Except.ok { name := "Book", guid := "g" }
    editorOut := fun _ => "---\ntitle: T2\n---\nM2\n"
    editorErr := none
    stdinContent := ""
    mdToXML := fun s => s
    updateErr := fun _ => some "boom"
    recoverySaveErr := fun _ => some "disk full" }

/-- The note sent to the store in that session (wire-wrapped body). -/
def c3Sent : Note :=
  { freshNote with
    title := "T2"
    guid := "id"
    body := XMLHeader ++ "<en-note>" ++ "M2" ++ "</en-note>"
    md := "M2"
    notebook := some { name := "Book", guid := "g" } }

/-- The observable outcome of that session. -/
def c3Result : EditResult :=
  { err := some "Error when saving note: boom\nFailed to create recovery point: disk full"
    updated := some c3Sent
    recovered := some c3Sent }

/-- C3 witness: in the doubly-failing session the recovery sink received
the sent note and the error message is the composite of both failures. -/
theorem C3_witness :
    c3Result.recovered = some c3Sent ∧
    c3Result.err = some
      "Error when saving note: boom\nFailed to create recovery point: disk full" := by
  have h := C3_save_failure c3Env DefaultNoteOption c3Result c3Sent "boom" rfl rfl rfl
  exact ⟨h.1, h.2⟩

/-- C9 witness: the recovery note of the failing session is the updated
note and its Body is the wire envelope around the converted markdown, not
the markdown "M2" itself. -/
theorem C9_witness :
    c3Result.updated = some c3Sent ∧
    c3Sent.body = toXML c3Env.mdToXML c3Sent.md := by
  have h := C9_recovery_wire_body c3Env DefaultNoteOption c3Result c3Sent rfl rfl
  exact ⟨h.1, h.2.1 rfl⟩

end Clinote
